import Mathlib

/-!
Shallow embedding of `src/train.py` from the retina-face-detector repository.

The script is a training driver: `parse_args` declares the command-line
surface, `train` performs one pass over the training dataloader, and the
`__main__` block builds dataloaders / model / optimizer / scheduler, runs
the epoch loop with experiment logging, and finally exports a weights
artifact.  Loss values are modelled as rationals, the external framework
and tracking-service calls as events in a trace, and fallible external
calls through `Except String`.
-/

namespace RetinaTrain

/-- Constants imported from `model.config` (a repository file not present
under `src/`): their concrete values are unknown, so they are carried as
parameters of the embedding and every theorem quantifies over them. -/
structure Config where
  RUN_NAME : String
  EPOCHS : Int
  WEIGHT_DECAY : Int
  MOMENTUM : Int
  START_FRAME : Int
  BATCH_SIZE : Int
  LEARNING_RATE : ℚ
  SAVE_PATH : String
  DATA_PATH : String
  LR_MILESTONE : List ℕ
  NUM_WORKERS : Int
  RANDOM_SEED : Int
  deriving DecidableEq, Repr

/-- A Python value as it appears among parsed argument values:
`argparse` stores strings, ints, floats, booleans, or `None`. -/
inductive PyVal
  | str (s : String)
  | int (i : Int)
  | float (q : ℚ)
  | bool (b : Bool)
  | none
  deriving DecidableEq, Repr

/-- The kind of an `add_argument` declaration: its `type=` (or
`action=` is `store_true`). -/
inductive ArgKind
  | str
  | int
  | float
  | storeTrue
  deriving DecidableEq, Repr

/-- One `parser.add_argument` call: option name, kind, declared default. -/
structure ArgSpec where
  name : String
  kind : ArgKind
  dflt : PyVal
  deriving DecidableEq, Repr

/-- The eleven `parser.add_argument` calls of `parse_args`
(`src/train.py` lines 22-32), in source order. `store_true` options
default to `False`. -/
def argSpecs (cfg : Config) : List ArgSpec :=
  [ ⟨"--run", ArgKind.str, PyVal.str cfg.RUN_NAME⟩,
    ⟨"--epoch", ArgKind.int, PyVal.int cfg.EPOCHS⟩,
    ⟨"--model", ArgKind.str, PyVal.str "mobilenet0.25"⟩,
    ⟨"--weight", ArgKind.str, PyVal.none⟩,
    ⟨"--weight_decay", ArgKind.int, PyVal.int cfg.WEIGHT_DECAY⟩,
    ⟨"--momentum", ArgKind.int, PyVal.int cfg.MOMENTUM⟩,
    ⟨"--startfm", ArgKind.int, PyVal.int cfg.START_FRAME⟩,
    ⟨"--batchsize", ArgKind.int, PyVal.int cfg.BATCH_SIZE⟩,
    ⟨"--lr", ArgKind.float, PyVal.float cfg.LEARNING_RATE⟩,
    ⟨"--download", ArgKind.storeTrue, PyVal.bool false⟩,
    ⟨"--tuning", ArgKind.storeTrue, PyVal.bool false⟩ ]

/-- A command-line token: an option flag, or a value supplied to the
preceding option (already carried at its Python type; the string-to-`type`
conversion of `argparse` is abstracted). -/
inductive CliTok
  | flag (name : String)
  | value (v : PyVal)
  deriving DecidableEq, Repr

/-- Whether a parsed value matches the declared kind of an option. -/
def kindMatches : ArgKind → PyVal → Bool
  | ArgKind.str, PyVal.str _ => true
  | ArgKind.int, PyVal.int _ => true
  | ArgKind.float, PyVal.float _ => true
  | _, _ => false

/-- Process the token list against the declared options, producing the
assignment of option name to supplied value.  An option name that was
never declared is rejected, as `argparse` rejects unrecognized
arguments; a missing or ill-typed value for a value-taking option is
also rejected. -/
def parseTokens (specs : List ArgSpec) : List CliTok → Except String (List (String × PyVal))
  | [] => Except.ok []
  | CliTok.value _ :: _ => Except.error "unrecognized positional argument"
  | CliTok.flag t :: rest =>
    match specs.find? (fun s => s.name == t) with
    | Option.none => Except.error ("unrecognized arguments: " ++ t)
    | Option.some s =>
      match s.kind with
      | ArgKind.storeTrue =>
        match parseTokens specs rest with
        | Except.error e => Except.error e
        | Except.ok m => Except.ok ((t, PyVal.bool true) :: m)
      | k =>
        match rest with
        | CliTok.value v :: rest2 =>
          if kindMatches k v then
            match parseTokens specs rest2 with
            | Except.error e => Except.error e
            | Except.ok m => Except.ok ((t, v) :: m)
          else Except.error ("invalid value for " ++ t)
        | _ => Except.error (t ++ ": expected one argument")

/-- Look up the value supplied for an option, if any (first occurrence,
as later `argparse` occurrences override earlier ones is irrelevant
here: lookups are keyed by name). -/
def lookupVal (m : List (String × PyVal)) (name : String) : Option PyVal :=
  (m.find? (fun p => p.1 == name)).map (fun p => p.2)

/-- The parsed-argument namespace returned by `parse_args`: one typed
field per declared option. -/
structure Args where
  run : String
  epoch : Int
  model : String
  weight : PyVal
  weight_decay : Int
  momentum : Int
  startfm : Int
  batchsize : Int
  lr : ℚ
  download : Bool
  tuning : Bool
  deriving DecidableEq, Repr

/-- Build the `Args` namespace from the supplied assignment, falling
back to the declared default of each option when it was not supplied. -/
def argsOfMap (cfg : Config) (m : List (String × PyVal)) : Args where
  run := match lookupVal m "--run" with
    | Option.some (PyVal.str s) => s
    | _ => cfg.RUN_NAME
  epoch := match lookupVal m "--epoch" with
    | Option.some (PyVal.int i) => i
    | _ => cfg.EPOCHS
  model := match lookupVal m "--model" with
    | Option.some (PyVal.str s) => s
    | _ => "mobilenet0.25"
  weight := (lookupVal m "--weight").getD PyVal.none
  weight_decay := match lookupVal m "--weight_decay" with
    | Option.some (PyVal.int i) => i
    | _ => cfg.WEIGHT_DECAY
  momentum := match lookupVal m "--momentum" with
    | Option.some (PyVal.int i) => i
    | _ => cfg.MOMENTUM
  startfm := match lookupVal m "--startfm" with
    | Option.some (PyVal.int i) => i
    | _ => cfg.START_FRAME
  batchsize := match lookupVal m "--batchsize" with
    | Option.some (PyVal.int i) => i
    | _ => cfg.BATCH_SIZE
  lr := match lookupVal m "--lr" with
    | Option.some (PyVal.float q) => q
    | _ => cfg.LEARNING_RATE
  download := match lookupVal m "--download" with
    | Option.some (PyVal.bool b) => b
    | _ => false
  tuning := match lookupVal m "--tuning" with
    | Option.some (PyVal.bool b) => b
    | _ => false

/-- The whole of `parse_args` (`src/train.py` lines 19-35): parse the
command line against the declared options and build the namespace. -/
def parse_args (cfg : Config) (toks : List CliTok) : Except String Args :=
  match parseTokens (argSpecs cfg) toks with
  | Except.error e => Except.error e
  | Except.ok m => Except.ok (argsOfMap cfg m)

/-- The option names a token list mentions. -/
def flagsOf : List CliTok → List String
  | [] => []
  | CliTok.flag t :: rest => t :: flagsOf rest
  | CliTok.value _ :: rest => flagsOf rest

/-- The triple returned by one call of the multi-task loss function:
`(loss_l, loss_c, loss_landm)` = (box-regression loss, classification
loss, landmark-regression loss), modelled over ℚ. -/
abbrev LossTriple := ℚ × ℚ × ℚ

/-- Observable calls into the tensor framework and the tracking service,
recorded as a trace.  In `logScalars step a b c`, the three rationals
are the values logged under the dictionary keys `loss_cls`, `loss_box`
and `loss_landmark` respectively (in the order of the literal dict at
`src/train.py` line 143). -/
inductive Event
  | inputToDevice (batch : ℕ)
  | targetsToDevice (batch : ℕ)
  | forward (batch : ℕ)
  | zeroGrad
  | backward (loss : ℚ)
  | optStep
  | exportOnnx (path : String)
  | savePth (path : String)
  | logScalars (step : ℕ) (vCls vBox vLandmark : ℚ)
  | logLr (step : ℕ) (lr : ℚ)
  | schedStep
  | summaryBest (ap : ℚ)
  | artifactNew (name ty : String)
  | artifactAdd (path : String)
  | logArtifact
  deriving DecidableEq, Repr

/-- The body of the `for` loop of `train` (`src/train.py` lines 41-60),
iterated over the batches of the dataloader with batch index `i` and the
three running loss accumulators.  Each batch: move input and targets to
the device, run the model forward, call the loss function (which, as an
external-framework call, may raise), combine `1.3*loss_l + loss_c +
loss_landm`, add each component to its accumulator, zero the gradients,
backpropagate the combined loss, and take one optimizer step.  An
exception from the loss call propagates (there is no `try` in the
file). -/
def trainLoop (run : ℕ → Except String LossTriple) :
    ℕ → ℕ → ℚ → ℚ → ℚ → Except String ((ℚ × ℚ × ℚ) × List Event)
  | 0, _, loss_cls, loss_box, loss_pts =>
    Except.ok ((loss_cls, loss_box, loss_pts), [])
  | rest + 1, i, loss_cls, loss_box, loss_pts =>
    match run i with
    | Except.error e => Except.error e
    | Except.ok (loss_l, loss_c, loss_landm) =>
      let loss := 13/10 * loss_l + loss_c + loss_landm
      let evs := [Event.inputToDevice i, Event.targetsToDevice i, Event.forward i,
                  Event.zeroGrad, Event.backward loss, Event.optStep]
      match trainLoop run rest (i + 1) (loss_cls + loss_c) (loss_box + loss_l)
          (loss_pts + loss_landm) with
      | Except.error e => Except.error e
      | Except.ok (acc, evs2) => Except.ok (acc, evs ++ evs2)

/-- A training dataloader, abstracted: `numBatches` is `len(trainloader)`
and `lossAt i` is the outcome of the loss-function call on batch `i`
(the model forward itself is recorded as an event; its numeric content
is summarized by the loss triple). -/
structure Loader where
  numBatches : ℕ
  lossAt : ℕ → Except String LossTriple

/-- The whole `train` function (`src/train.py` lines 37-72): the batch
loop, then division of each accumulator by `len(trainloader)` (a Python
`ZeroDivisionError` when the loader is empty), then the checkpoint
export guarded by `epoch_ap > best_ap` (with `epoch_ap` the constant
0), and the positional return
`(loss_cls, loss_box, loss_pts, epoch_ap)`. -/
def train (loader : Loader) (best_ap : ℚ) (runName savePath : String) :
    Except String ((ℚ × ℚ × ℚ × ℚ) × List Event) :=
  match trainLoop loader.lossAt loader.numBatches 0 0 0 0 with
  | Except.error e => Except.error e
  | Except.ok ((cls, box, pts), evs) =>
    if loader.numBatches = 0 then Except.error "ZeroDivisionError"
    else
      let n : ℚ := loader.numBatches
      let loss_cls := cls / n
      let loss_box := box / n
      let loss_pts := pts / n
      let epoch_ap : ℚ := 0
      let evs2 :=
        if best_ap < epoch_ap then
          evs ++ [Event.exportOnnx (savePath ++ runName ++ ".onnx"),
                  Event.savePth (savePath ++ runName ++ ".pth")]
        else evs
      Except.ok ((loss_cls, loss_box, loss_pts, epoch_ap), evs2)

/-- The `MultiStepLR` scheduler state (`src/train.py` line 128): base
learning rate from the optimizer, `milestones=LR_MILESTONE`,
`gamma=0.7`, and the number of `step()` calls so far. -/
structure Scheduler where
  baseLr : ℚ
  milestones : List ℕ
  gamma : ℚ
  lastEpoch : ℕ
  deriving DecidableEq, Repr

/-- `scheduler.get_last_lr()[0]`: the base learning rate decayed by
`gamma` once for every milestone at or below the current epoch
counter. -/
def Scheduler.getLastLr (s : Scheduler) : ℚ :=
  s.baseLr * s.gamma ^ (s.milestones.countP (fun m => decide (m ≤ s.lastEpoch)))

/-- `scheduler.step()`: advance the epoch counter once. -/
def Scheduler.step (s : Scheduler) : Scheduler :=
  ⟨s.baseLr, s.milestones, s.gamma, s.lastEpoch + 1⟩

/-- Mutable state threaded through the `__main__` epoch loop. -/
structure MainState where
  best_ap : ℚ
  sched : Scheduler
  deriving DecidableEq, Repr

/-- One iteration of the `__main__` epoch loop (`src/train.py` lines
136-159): call `train` once, bind its return tuple positionally to
`loss_box, loss_pts, loss_cls, train_ap` (line 139), log the three
losses at `step=epoch`, log `scheduler.get_last_lr()[0]` at
`step=epoch`, call `scheduler.step()`, and update `best_ap` plus the
run summary when `train_ap > best_ap`. -/
def epochBody (loaderAt : ℕ → Loader) (runName savePath : String) (epoch : ℕ)
    (st : MainState) : Except String (MainState × List Event) :=
  match train (loaderAt epoch) st.best_ap runName savePath with
  | Except.error e => Except.error e
  | Except.ok ((r1, r2, r3, r4), trainEvs) =>
    let loss_box := r1
    let loss_pts := r2
    let loss_cls := r3
    let train_ap := r4
    let evs := trainEvs ++ [Event.logScalars epoch loss_cls loss_box loss_pts,
                            Event.logLr epoch st.sched.getLastLr,
                            Event.schedStep]
    let sched2 := st.sched.step
    if st.best_ap < train_ap then
      Except.ok (⟨train_ap, sched2⟩, evs ++ [Event.summaryBest train_ap])
    else
      Except.ok (⟨st.best_ap, sched2⟩, evs)

/-- Run `count` successive iterations of the epoch loop starting at
epoch index `e`, threading the state and concatenating the traces; an
exception from any iteration propagates and aborts the rest. -/
def runEpochsFrom (loaderAt : ℕ → Loader) (runName savePath : String) :
    ℕ → ℕ → MainState → Except String (MainState × List Event)
  | _, 0, st => Except.ok (st, [])
  | e, count + 1, st =>
    match epochBody loaderAt runName savePath e st with
    | Except.error err => Except.error err
    | Except.ok (st1, evs1) =>
      match runEpochsFrom loaderAt runName savePath (e + 1) count st1 with
      | Except.error err => Except.error err
      | Except.ok (st2, evs2) => Except.ok (st2, evs1 ++ evs2)

/-- The `__main__` block from the start of the epoch loop (`best_ap =
-1`, line 134) to the end of the file: run `range(args.epoch)` epochs
with the scheduler initialized from `args.lr`, `LR_MILESTONE` and
`gamma=0.7`, then, unless `--tuning` was given, create one `wandb`
artifact named `args.run` of type `weights`, add the two exported
weight files, and log it. -/
def runMain (cfg : Config) (a : Args) (loaderAt : ℕ → Loader) :
    Except String (MainState × List Event) :=
  let sched0 : Scheduler := ⟨a.lr, cfg.LR_MILESTONE, 7/10, 0⟩
  let st0 : MainState := ⟨-1, sched0⟩
  match runEpochsFrom loaderAt a.run cfg.SAVE_PATH 0 a.epoch.toNat st0 with
  | Except.error e => Except.error e
  | Except.ok (st, evs) =>
    let evs2 :=
      if a.tuning then evs
      else
        evs ++ [Event.artifactNew a.run "weights",
                Event.artifactAdd (cfg.SAVE_PATH ++ a.run ++ ".onnx"),
                Event.artifactAdd (cfg.SAVE_PATH ++ a.run ++ ".pth"),
                Event.logArtifact]
    Except.ok (st, evs2)

/-- The arguments of a `DataLoader` construction (`src/train.py` lines
105-106), together with the `WiderFaceDataset` arguments of the dataset
passed to it (lines 98-99). -/
structure LoaderInit where
  root_path : String
  is_train : Bool
  batch_size : Int
  shuffle : Bool
  num_workers : Int
  collate_fn : String
  deriving DecidableEq, Repr

/-- `trainloader = DataLoader(train_set, batch_size=BATCH_SIZE,
shuffle=True, num_workers=NUM_WORKERS, collate_fn=detection_collate)`
with `train_set = WiderFaceDataset(root_path=DATA_PATH,
is_train=True)`: every field comes from a `model.config` constant, none
from `args`. -/
def mkTrainloader (cfg : Config) (_a : Args) : LoaderInit :=
  ⟨cfg.DATA_PATH, true, cfg.BATCH_SIZE, true, cfg.NUM_WORKERS, "detection_collate"⟩

/-- `validloader = DataLoader(valid_set, batch_size=BATCH_SIZE,
shuffle=False, num_workers=NUM_WORKERS, collate_fn=detection_collate)`
with `valid_set = WiderFaceDataset(root_path=DATA_PATH,
is_train=False)`. -/
def mkValidloader (cfg : Config) (_a : Args) : LoaderInit :=
  ⟨cfg.DATA_PATH, false, cfg.BATCH_SIZE, false, cfg.NUM_WORKERS, "detection_collate"⟩

/-- How the model is initialized (`src/train.py` lines 103 and 114):
`torch.manual_seed(RANDOM_SEED)` followed by
`RetinaFace(model_name=args.model)`.  `loadedWeight` records which
pretrained weight file, if any, is loaded into the model before
training: the script contains no weight-loading call, so it is always
`none`. -/
structure ModelInit where
  model_name : String
  seed : Int
  loadedWeight : Option String
  deriving DecidableEq, Repr

/-- The model construction of the `__main__` block. -/
def mkModel (cfg : Config) (a : Args) : ModelInit :=
  ⟨a.model, cfg.RANDOM_SEED, Option.none⟩

/-- A loader whose `n` loss calls all succeed, with values given by
`f`. -/
def pureLoader (n : ℕ) (f : ℕ → LossTriple) : Loader :=
  ⟨n, fun i => Except.ok (f i)⟩

/-- Sum of `g` over the `k` indices starting at `i`. -/
def sumFrom (g : ℕ → ℚ) (i k : ℕ) : ℚ :=
  ((List.range' i k).map g).sum

/-- Accumulated classification loss over `n` batches. -/
def sumCls (f : ℕ → LossTriple) (n : ℕ) : ℚ := sumFrom (fun j => (f j).2.1) 0 n

/-- Accumulated box-regression loss over `n` batches. -/
def sumBox (f : ℕ → LossTriple) (n : ℕ) : ℚ := sumFrom (fun j => (f j).1) 0 n

/-- Accumulated landmark-regression loss over `n` batches. -/
def sumPts (f : ℕ → LossTriple) (n : ℕ) : ℚ := sumFrom (fun j => (f j).2.2) 0 n

/-- Mean classification loss over `n` batches. -/
def meanCls (f : ℕ → LossTriple) (n : ℕ) : ℚ := sumCls f n / n

/-- Mean box-regression loss over `n` batches. -/
def meanBox (f : ℕ → LossTriple) (n : ℕ) : ℚ := sumBox f n / n

/-- Mean landmark-regression loss over `n` batches. -/
def meanPts (f : ℕ → LossTriple) (n : ℕ) : ℚ := sumPts f n / n

/-- The six framework calls the loop body performs for batch `i`, in
source order. -/
def batchEvents (f : ℕ → LossTriple) (i : ℕ) : List Event :=
  [Event.inputToDevice i, Event.targetsToDevice i, Event.forward i,
   Event.zeroGrad,
   Event.backward (13/10 * (f i).1 + (f i).2.1 + (f i).2.2),
   Event.optStep]

/-- Expected trace of the batch loop over `k` batches starting at
index `i`. -/
def trainTrace (f : ℕ → LossTriple) : ℕ → ℕ → List Event
  | _, 0 => []
  | i, k + 1 => batchEvents f i ++ trainTrace f (i + 1) k

/-- The two checkpoint-export events of `train`. -/
def exportEvents (runName savePath : String) : List Event :=
  [Event.exportOnnx (savePath ++ runName ++ ".onnx"),
   Event.savePth (savePath ++ runName ++ ".pth")]

/-- The three logging/scheduling events the epoch loop appends after the
`train` call of epoch `e`, for a run configured with base learning rate
`lr0` and milestones `ms`. -/
def epochLogEvents (N : ℕ → ℕ) (F : ℕ → ℕ → LossTriple) (lr0 : ℚ) (ms : List ℕ)
    (e : ℕ) : List Event :=
  [Event.logScalars e (meanPts (F e) (N e)) (meanCls (F e) (N e)) (meanBox (F e) (N e)),
   Event.logLr e (lr0 * (7/10) ^ (ms.countP (fun m => decide (m ≤ e)))),
   Event.schedStep]

/-- Expected trace of epoch `e` of the main loop (when every loss call
succeeds and every epoch has at least one batch): the batch loop, the
checkpoint export and the best-accuracy summary update exactly when
`e = 0`, and the loss / learning-rate logging followed by the scheduler
step. -/
def epochSection (N : ℕ → ℕ) (F : ℕ → ℕ → LossTriple) (lr0 : ℚ) (ms : List ℕ)
    (runName savePath : String) (e : ℕ) : List Event :=
  trainTrace (F e) 0 (N e)
    ++ (if e = 0 then exportEvents runName savePath else [])
    ++ epochLogEvents N F lr0 ms e
    ++ (if e = 0 then [Event.summaryBest 0] else [])

/-- The four tracking-service calls of the artifact export block
(`src/train.py` lines 161-165). -/
def artifactTail (cfg : Config) (a : Args) : List Event :=
  [Event.artifactNew a.run "weights",
   Event.artifactAdd (cfg.SAVE_PATH ++ a.run ++ ".onnx"),
   Event.artifactAdd (cfg.SAVE_PATH ++ a.run ++ ".pth"),
   Event.logArtifact]

/-- The scalar handed to `loss.backward()`, when the event is a
backpropagation. -/
def backwardLoss : Event → Option ℚ
  | Event.backward q => Option.some q
  | _ => Option.none

/-- The `(step, value-under-key-loss_cls, value-under-key-loss_box,
value-under-key-loss_landmark)` content of a loss-logging call. -/
def scalarsLogged : Event → Option (ℕ × ℚ × ℚ × ℚ)
  | Event.logScalars s a b c => Option.some (s, a, b, c)
  | _ => Option.none

/-- Whether an event is one of the `wandb` artifact calls. -/
def isArtifactEvent : Event → Bool
  | Event.artifactNew _ _ => true
  | Event.artifactAdd _ => true
  | Event.logArtifact => true
  | _ => false

/-- Whether an event is a checkpoint export (`torch.onnx.export` or
`torch.save`). -/
def isExportEvent : Event → Bool
  | Event.exportOnnx _ => true
  | Event.savePth _ => true
  | _ => false

/-- The value of the `best_ap` variable after the first `k` iterations
of the epoch loop (starting from its initialization to `-1` at
`src/train.py` line 134), or `none` when an iteration raised. -/
def bestAfter (loaderAt : ℕ → Loader) (runName savePath : String) (lr0 : ℚ)
    (ms : List ℕ) (k : ℕ) : Option ℚ :=
  match runEpochsFrom loaderAt runName savePath 0 k ⟨-1, ⟨lr0, ms, 7/10, 0⟩⟩ with
  | Except.ok (st, _) => Option.some st.best_ap
  | Except.error _ => Option.none

/-- The parsed value corresponding to a declared option name, read back
out of the `Args` namespace as a Python value. -/
def fieldOf (a : Args) : String → Option PyVal
  | "--run" => Option.some (PyVal.str a.run)
  | "--epoch" => Option.some (PyVal.int a.epoch)
  | "--model" => Option.some (PyVal.str a.model)
  | "--weight" => Option.some a.weight
  | "--weight_decay" => Option.some (PyVal.int a.weight_decay)
  | "--momentum" => Option.some (PyVal.int a.momentum)
  | "--startfm" => Option.some (PyVal.int a.startfm)
  | "--batchsize" => Option.some (PyVal.int a.batchsize)
  | "--lr" => Option.some (PyVal.float a.lr)
  | "--download" => Option.some (PyVal.bool a.download)
  | "--tuning" => Option.some (PyVal.bool a.tuning)
  | _ => Option.none

/-- The declared default of an option name. -/
def defaultOf (cfg : Config) (name : String) : Option PyVal :=
  ((argSpecs cfg).find? (fun s => s.name == name)).map ArgSpec.dflt

/-- A command line supplying every one of the eleven declared options
once. -/
def demoToks : List CliTok :=
  [CliTok.flag "--run", CliTok.value (PyVal.str "x"),
   CliTok.flag "--epoch", CliTok.value (PyVal.int 0),
   CliTok.flag "--model", CliTok.value (PyVal.str "m"),
   CliTok.flag "--weight", CliTok.value (PyVal.str "w"),
   CliTok.flag "--weight_decay", CliTok.value (PyVal.int 0),
   CliTok.flag "--momentum", CliTok.value (PyVal.int 0),
   CliTok.flag "--startfm", CliTok.value (PyVal.int 0),
   CliTok.flag "--batchsize", CliTok.value (PyVal.int 0),
   CliTok.flag "--lr", CliTok.value (PyVal.float 0),
   CliTok.flag "--download", CliTok.flag "--tuning"]

/-- Concrete loss function used to instantiate theorems: every batch
yields the triple `(1, 2, 3)`. -/
def wF : ℕ → LossTriple := fun _ => (1, 2, 3)

/-- Concrete per-epoch loss function for instantiating the main loop. -/
def wFF : ℕ → ℕ → LossTriple := fun _ _ => (1, 2, 3)

/-- Concrete batches-per-epoch function: one batch per epoch. -/
def wN : ℕ → ℕ := fun _ => 1

/-- Concrete configuration values for instantiating theorems. -/
def wCfg : Config :=
  ⟨"cfgrun", 3, 5, 1, 8, 32, 1/1000, "weights/", "data/", [30], 2, 42⟩

/-- Concrete parsed arguments with one epoch. -/
def wArgs1 : Args :=
  ⟨"run0", 1, "mobilenet0.25", PyVal.none, 5, 1, 8, 32, 1/100, false, false⟩

/-- Concrete parsed arguments with two epochs. -/
def wArgs2 : Args :=
  ⟨"run0", 2, "mobilenet0.25", PyVal.none, 5, 1, 8, 32, 1/100, false, false⟩

/-- Concrete loader whose single loss call raises. -/
def wBadLoader : Loader := ⟨1, fun _ => Except.error "boom"⟩

theorem trainTrace_eq_flat (f : ℕ → LossTriple) :
    ∀ k i, trainTrace f i k = (List.range' i k).flatMap (batchEvents f) := by
  intro k
  induction k with
  | zero => intro i; simp [trainTrace]
  | succ k ih =>
    intro i
    simp [trainTrace, List.range'_succ, ih]

theorem sumFrom_succ (g : ℕ → ℚ) (i k : ℕ) :
    sumFrom g i (k + 1) = g i + sumFrom g (i + 1) k := by
  simp [sumFrom, List.range'_succ]

theorem trainLoop_pure (f : ℕ → LossTriple) :
    ∀ (k i : ℕ) (c b p : ℚ),
      trainLoop (fun j => Except.ok (f j)) k i c b p =
        Except.ok ((c + sumFrom (fun j => (f j).2.1) i k,
                    b + sumFrom (fun j => (f j).1) i k,
                    p + sumFrom (fun j => (f j).2.2) i k),
                   trainTrace f i k) := by
  intro k
  induction k with
  | zero => intro i c b p; simp [trainLoop, sumFrom, trainTrace]
  | succ k ih =>
    intro i c b p
    simp only [trainLoop, ih, trainTrace, batchEvents, sumFrom_succ, add_assoc]

theorem train_pure (n : ℕ) (f : ℕ → LossTriple) (bap : ℚ) (runName savePath : String)
    (hn : n ≠ 0) :
    train (pureLoader n f) bap runName savePath =
      Except.ok ((meanCls f n, meanBox f n, meanPts f n, 0),
        trainTrace f 0 n ++ (if bap < 0 then exportEvents runName savePath else [])) := by
  simp only [train, pureLoader, trainLoop_pure, hn, if_false, zero_add]
  simp only [meanCls, meanBox, meanPts, sumCls, sumBox, sumPts]
  by_cases h : bap < 0 <;> simp [h, exportEvents]

theorem epochBody_pure (N : ℕ → ℕ) (F : ℕ → ℕ → LossTriple)
    (runName savePath : String) (e : ℕ) (st : MainState) (hN : N e ≠ 0) :
    epochBody (fun j => pureLoader (N j) (F j)) runName savePath e st =
      Except.ok (⟨if st.best_ap < 0 then 0 else st.best_ap, st.sched.step⟩,
        trainTrace (F e) 0 (N e)
          ++ (if st.best_ap < 0 then exportEvents runName savePath else [])
          ++ [Event.logScalars e (meanPts (F e) (N e)) (meanCls (F e) (N e))
                (meanBox (F e) (N e)),
              Event.logLr e st.sched.getLastLr,
              Event.schedStep]
          ++ (if st.best_ap < 0 then [Event.summaryBest 0] else [])) := by
  simp only [epochBody, train_pure (N e) (F e) st.best_ap runName savePath hN]
  by_cases h : st.best_ap < 0 <;> simp [h]

theorem runEpochs_steady (N : ℕ → ℕ) (F : ℕ → ℕ → LossTriple)
    (runName savePath : String) (lr0 : ℚ) (ms : List ℕ) (hN : ∀ e, N e ≠ 0) :
    ∀ (k e : ℕ), e ≠ 0 →
      runEpochsFrom (fun j => pureLoader (N j) (F j)) runName savePath e k
          ⟨0, ⟨lr0, ms, 7/10, e⟩⟩ =
        Except.ok (⟨0, ⟨lr0, ms, 7/10, e + k⟩⟩,
          (List.range' e k).flatMap (epochSection N F lr0 ms runName savePath)) := by
  intro k
  induction k with
  | zero => intro e _; simp [runEpochsFrom]
  | succ k ih =>
    intro e he
    have hbody := epochBody_pure N F runName savePath e ⟨0, ⟨lr0, ms, 7/10, e⟩⟩ (hN e)
    simp only [show ¬((0 : ℚ) < 0) by norm_num, if_false] at hbody
    simp only [runEpochsFrom, hbody, Scheduler.step, ih (e + 1) (Nat.succ_ne_zero e)]
    simp only [List.range'_succ, List.flatMap_cons, epochSection, he, if_false,
      Scheduler.getLastLr, epochLogEvents]
    refine congrArg Except.ok (Prod.ext ?_ ?_)
    · simp [Nat.add_assoc, Nat.add_comm 1 k]
    · simp

theorem runEpochs_initial (N : ℕ → ℕ) (F : ℕ → ℕ → LossTriple)
    (runName savePath : String) (lr0 : ℚ) (ms : List ℕ) (hN : ∀ e, N e ≠ 0) (k : ℕ) :
    runEpochsFrom (fun j => pureLoader (N j) (F j)) runName savePath 0 k
        ⟨-1, ⟨lr0, ms, 7/10, 0⟩⟩ =
      Except.ok (⟨if k = 0 then -1 else 0, ⟨lr0, ms, 7/10, k⟩⟩,
        (List.range k).flatMap (epochSection N F lr0 ms runName savePath)) := by
  cases k with
  | zero => simp [runEpochsFrom]
  | succ m =>
    have hbody := epochBody_pure N F runName savePath 0 ⟨-1, ⟨lr0, ms, 7/10, 0⟩⟩ (hN 0)
    simp only [show ((-1 : ℚ) < 0) by norm_num, if_true] at hbody
    simp only [runEpochsFrom, hbody, Scheduler.step,
      runEpochs_steady N F runName savePath lr0 ms hN m 1 one_ne_zero]
    simp only [List.range_eq_range', List.range'_succ, List.flatMap_cons, epochSection,
      if_pos rfl, Scheduler.getLastLr, epochLogEvents, Nat.succ_ne_zero, if_false]
    refine congrArg Except.ok (Prod.ext ?_ ?_)
    · simp [Nat.add_comm 1 m]
    · simp

theorem runMain_pure (cfg : Config) (a : Args) (N : ℕ → ℕ) (F : ℕ → ℕ → LossTriple)
    (hN : ∀ e, N e ≠ 0) :
    runMain cfg a (fun j => pureLoader (N j) (F j)) =
      Except.ok (⟨if a.epoch.toNat = 0 then -1 else 0,
                  ⟨a.lr, cfg.LR_MILESTONE, 7/10, a.epoch.toNat⟩⟩,
        (List.range a.epoch.toNat).flatMap
            (epochSection N F a.lr cfg.LR_MILESTONE a.run cfg.SAVE_PATH)
          ++ (if a.tuning then [] else artifactTail cfg a)) := by
  simp only [runMain,
    runEpochs_initial N F a.run cfg.SAVE_PATH a.lr cfg.LR_MILESTONE hN a.epoch.toNat]
  by_cases h : a.tuning <;> simp [h, artifactTail]

theorem trainTrace_count_optStep (f : ℕ → LossTriple) :
    ∀ k i, (trainTrace f i k).count Event.optStep = k := by
  intro k
  induction k with
  | zero => intro i; simp [trainTrace]
  | succ k ih =>
    intro i
    simp [trainTrace, batchEvents, List.count_append, ih, List.count_cons]

theorem trainTrace_filterMap_backward (f : ℕ → LossTriple) :
    ∀ k i, (trainTrace f i k).filterMap backwardLoss =
      (List.range' i k).map (fun j => 13/10 * (f j).1 + (f j).2.1 + (f j).2.2) := by
  intro k
  induction k with
  | zero => intro i; simp [trainTrace]
  | succ k ih =>
    intro i
    simp [trainTrace, batchEvents, List.range'_succ, ih, backwardLoss]

theorem trainTrace_filterMap_scalars (f : ℕ → LossTriple) :
    ∀ k i, (trainTrace f i k).filterMap scalarsLogged = [] := by
  intro k
  induction k with
  | zero => intro i; simp [trainTrace]
  | succ k ih =>
    intro i
    simp [trainTrace, batchEvents, ih, scalarsLogged]

theorem trainTrace_filter_artifact (f : ℕ → LossTriple) :
    ∀ k i, (trainTrace f i k).filter isArtifactEvent = [] := by
  intro k
  induction k with
  | zero => intro i; simp [trainTrace]
  | succ k ih =>
    intro i
    simp [trainTrace, batchEvents, ih, isArtifactEvent, List.filter_append]

theorem trainTrace_filter_export (f : ℕ → LossTriple) :
    ∀ k i, (trainTrace f i k).filter isExportEvent = [] := by
  intro k
  induction k with
  | zero => intro i; simp [trainTrace]
  | succ k ih =>
    intro i
    simp [trainTrace, batchEvents, ih, isExportEvent, List.filter_append]

theorem trainTrace_count_schedStep (f : ℕ → LossTriple) :
    ∀ k i, (trainTrace f i k).count Event.schedStep = 0 := by
  intro k
  induction k with
  | zero => intro i; simp [trainTrace]
  | succ k ih =>
    intro i
    simp [trainTrace, batchEvents, List.count_append, ih, List.count_cons]

theorem epochSection_count_schedStep (N : ℕ → ℕ) (F : ℕ → ℕ → LossTriple)
    (lr0 : ℚ) (ms : List ℕ) (runName savePath : String) (e : ℕ) :
    (epochSection N F lr0 ms runName savePath e).count Event.schedStep = 1 := by
  by_cases h : e = 0 <;>
    simp [epochSection, h, epochLogEvents, exportEvents, List.count_append,
      trainTrace_count_schedStep, List.count_cons]

theorem epochSection_filter_artifact (N : ℕ → ℕ) (F : ℕ → ℕ → LossTriple)
    (lr0 : ℚ) (ms : List ℕ) (runName savePath : String) (e : ℕ) :
    (epochSection N F lr0 ms runName savePath e).filter isArtifactEvent = [] := by
  by_cases h : e = 0 <;>
    simp [epochSection, h, epochLogEvents, exportEvents, List.filter_append,
      trainTrace_filter_artifact, isArtifactEvent]

theorem epochSection_filterMap_scalars (N : ℕ → ℕ) (F : ℕ → ℕ → LossTriple)
    (lr0 : ℚ) (ms : List ℕ) (runName savePath : String) (e : ℕ) :
    (epochSection N F lr0 ms runName savePath e).filterMap scalarsLogged =
      [(e, meanPts (F e) (N e), meanCls (F e) (N e), meanBox (F e) (N e))] := by
  by_cases h : e = 0 <;>
    simp [epochSection, h, epochLogEvents, exportEvents,
      trainTrace_filterMap_scalars, scalarsLogged]

theorem epochSection_filter_export (N : ℕ → ℕ) (F : ℕ → ℕ → LossTriple)
    (lr0 : ℚ) (ms : List ℕ) (runName savePath : String) (e : ℕ) :
    (epochSection N F lr0 ms runName savePath e).filter isExportEvent =
      if e = 0 then exportEvents runName savePath else [] := by
  by_cases h : e = 0 <;>
    simp [epochSection, h, epochLogEvents, exportEvents, List.filter_append,
      trainTrace_filter_export, isExportEvent]

theorem flatMap_count (g : ℕ → List Event) (a : Event) :
    ∀ l : List ℕ, (l.flatMap g).count a = (l.map (fun e => (g e).count a)).sum := by
  intro l
  induction l with
  | nil => simp
  | cons x xs ih => simp [List.count_append, ih]

theorem flatMap_filter (g : ℕ → List Event) (p : Event → Bool) :
    ∀ l : List ℕ, (l.flatMap g).filter p = l.flatMap (fun e => (g e).filter p) := by
  intro l
  induction l with
  | nil => simp
  | cons x xs ih => simp [List.filter_append, ih]

theorem flatMap_filterMap {β : Type} (g : ℕ → List Event) (p : Event → Option β) :
    ∀ l : List ℕ, (l.flatMap g).filterMap p = l.flatMap (fun e => (g e).filterMap p) := by
  intro l
  induction l with
  | nil => simp
  | cons x xs ih => simp [List.filterMap_append, ih]

theorem parseTokens_sound (specs : List ArgSpec) :
    ∀ (fuel : ℕ) (toks : List CliTok) (m : List (String × PyVal)),
      toks.length ≤ fuel → parseTokens specs toks = Except.ok m →
      ∀ q ∈ m, q.1 ∈ flagsOf toks ∧ q.1 ∈ specs.map ArgSpec.name := by
  intro fuel
  induction fuel with
  | zero =>
    intro toks m hlen hok q hq
    cases toks with
    | nil =>
      simp only [parseTokens, Except.ok.injEq] at hok
      subst hok
      simp at hq
    | cons hd tl => simp at hlen
  | succ fuel ih =>
    intro toks m hlen hok q hq
    cases toks with
    | nil =>
      simp only [parseTokens, Except.ok.injEq] at hok
      subst hok
      simp at hq
    | cons hd tl =>
      cases hd with
      | value v => simp [parseTokens] at hok
      | flag t =>
        rw [parseTokens] at hok
        split at hok
        · exact absurd hok (by simp)
        next s hf =>
          have hsmem : s ∈ specs := List.mem_of_find?_eq_some hf
          have hsname : s.name = t := by
            have hb : (s.name == t) = true := by simpa using List.find?_some hf
            exact eq_of_beq hb
          have hnames : t ∈ specs.map ArgSpec.name :=
            hsname ▸ List.mem_map_of_mem ArgSpec.name hsmem
          split at hok
          · -- store_true option
            split at hok
            · exact absurd hok (by simp)
            next m2 hrec =>
              simp only [Except.ok.injEq] at hok
              subst hok
              rw [List.mem_cons] at hq
              rcases hq with hq | hq
              · subst hq
                exact ⟨by simp [flagsOf], hnames⟩
              · have hrest := ih tl m2 (by simpa using Nat.le_of_succ_le_succ hlen) hrec q hq
                exact ⟨by simp [flagsOf, hrest.1], hrest.2⟩
          · -- value-taking option
            split at hok
            next v rest2 =>
              split at hok
              · split at hok
                · exact absurd hok (by simp)
                next m2 hrec =>
                  simp only [Except.ok.injEq] at hok
                  subst hok
                  rw [List.mem_cons] at hq
                  rcases hq with hq | hq
                  · subst hq
                    exact ⟨by simp [flagsOf], hnames⟩
                  · have hlen2 : rest2.length ≤ fuel := by simp at hlen; omega
                    have hrest := ih rest2 m2 hlen2 hrec q hq
                    exact ⟨by simp [flagsOf, hrest.1], hrest.2⟩
              · exact absurd hok (by simp)
            · exact absurd hok (by simp)

theorem parseTokens_lookup_none (specs : List ArgSpec) (toks : List CliTok)
    (m : List (String × PyVal)) (name : String)
    (hok : parseTokens specs toks = Except.ok m) (habs : name ∉ flagsOf toks) :
    lookupVal m name = Option.none := by
  cases hl : m.find? (fun p => p.1 == name) with
  | none => simp [lookupVal, hl]
  | some p =>
    have hpmem : p ∈ m := List.mem_of_find?_eq_some hl
    have hpname : p.1 = name := by
      have hb : (p.1 == name) = true := by simpa using List.find?_some hl
      exact eq_of_beq hb
    have := (parseTokens_sound specs toks.length toks m le_rfl hok p hpmem).1
    rw [hpname] at this
    exact absurd this habs

theorem trainLoop_error (run : ℕ → Except String LossTriple) (err : String) :
    ∀ (j k i : ℕ) (c b p : ℚ), j < k → run (i + j) = Except.error err →
      (∀ d, d < j → ∃ v, run (i + d) = Except.ok v) →
      trainLoop run k i c b p = Except.error err := by
  intro j
  induction j with
  | zero =>
    intro k i c b p hk herr _
    obtain ⟨k2, rfl⟩ : ∃ k2, k = k2 + 1 := ⟨k - 1, by omega⟩
    rw [Nat.add_zero] at herr
    simp [trainLoop, herr]
  | succ j ihj =>
    intro k i c b p hk herr hall
    obtain ⟨k2, rfl⟩ : ∃ k2, k = k2 + 1 := ⟨k - 1, by omega⟩
    obtain ⟨⟨l, c2, lm⟩, hv⟩ := hall 0 (Nat.succ_pos j)
    rw [Nat.add_zero] at hv
    have herr2 : run (i + 1 + j) = Except.error err := by
      rw [show i + 1 + j = i + (j + 1) by omega]; exact herr
    have hall2 : ∀ d, d < j → ∃ v, run (i + 1 + d) = Except.ok v := by
      intro d hd
      obtain ⟨v, hv2⟩ := hall (d + 1) (by omega)
      exact ⟨v, by rw [show i + 1 + d = i + (d + 1) by omega]; exact hv2⟩
    simp [trainLoop, hv, ihj k2 (i + 1) _ _ _ (by omega) herr2 hall2]

theorem train_error (loader : Loader) (bap : ℚ) (runName savePath : String)
    (j : ℕ) (err : String) (hj : j < loader.numBatches)
    (herr : loader.lossAt j = Except.error err)
    (hpre : ∀ d, d < j → ∃ v, loader.lossAt d = Except.ok v) :
    train loader bap runName savePath = Except.error err := by
  have h0 : loader.lossAt (0 + j) = Except.error err := by rwa [Nat.zero_add]
  have hall : ∀ d, d < j → ∃ v, loader.lossAt (0 + d) = Except.ok v := by
    intro d hd; simpa using hpre d hd
  simp [train, trainLoop_error loader.lossAt err j loader.numBatches 0 0 0 0 hj h0 hall]

theorem runEpochsFrom_add (loaderAt : ℕ → Loader) (runName savePath : String) :
    ∀ (j k e : ℕ) (st : MainState),
      runEpochsFrom loaderAt runName savePath e (j + k) st =
        match runEpochsFrom loaderAt runName savePath e j st with
        | Except.error err => Except.error err
        | Except.ok (st1, evs1) =>
          match runEpochsFrom loaderAt runName savePath (e + j) k st1 with
          | Except.error err => Except.error err
          | Except.ok (st2, evs2) => Except.ok (st2, evs1 ++ evs2) := by
  intro j
  induction j with
  | zero =>
    intro k e st
    simp only [Nat.zero_add, runEpochsFrom, Nat.add_zero]
    cases runEpochsFrom loaderAt runName savePath e k st with
    | error err => rfl
    | ok r => cases r; simp
  | succ j ihj =>
    intro k e st
    rw [show j + 1 + k = (j + k) + 1 by omega]
    rw [runEpochsFrom, runEpochsFrom]
    cases hb : epochBody loaderAt runName savePath e st with
    | error err => rfl
    | ok r =>
      obtain ⟨st1, evs1⟩ := r
      dsimp only
      rw [ihj k (e + 1) st1]
      rw [show e + 1 + j = e + (j + 1) by omega]
      cases runEpochsFrom loaderAt runName savePath (e + 1) j st1 with
      | error err => rfl
      | ok r2 =>
        obtain ⟨st2, evs2⟩ := r2
        dsimp only
        cases runEpochsFrom loaderAt runName savePath (e + (j + 1)) k st2 with
        | error err => rfl
        | ok r3 =>
          obtain ⟨st3, evs3⟩ := r3
          dsimp only
          rw [List.append_assoc]

theorem runMain_error (cfg : Config) (a : Args) (loaderAt : ℕ → Loader)
    (k : ℕ) (err : String) (st1 : MainState) (evs1 : List Event)
    (hk : k < a.epoch.toNat)
    (hpre : runEpochsFrom loaderAt a.run cfg.SAVE_PATH 0 k
        ⟨-1, ⟨a.lr, cfg.LR_MILESTONE, 7/10, 0⟩⟩ = Except.ok (st1, evs1))
    (herr : epochBody loaderAt a.run cfg.SAVE_PATH k st1 = Except.error err) :
    runMain cfg a loaderAt = Except.error err := by
  have hsplit := runEpochsFrom_add loaderAt a.run cfg.SAVE_PATH k (a.epoch.toNat - k) 0
      ⟨-1, ⟨a.lr, cfg.LR_MILESTONE, 7/10, 0⟩⟩
  rw [Nat.add_sub_cancel' (le_of_lt hk)] at hsplit
  rw [runMain, hsplit, hpre]
  dsimp only
  obtain ⟨m, hm⟩ : ∃ m, a.epoch.toNat - k = m + 1 := ⟨a.epoch.toNat - k - 1, by omega⟩
  rw [hm, runEpochsFrom, Nat.zero_add, herr]

theorem bestAfter_pure (N : ℕ → ℕ) (F : ℕ → ℕ → LossTriple)
    (runName savePath : String) (lr0 : ℚ) (ms : List ℕ)
    (hN : ∀ e, N e ≠ 0) (k : ℕ) :
    bestAfter (fun j => pureLoader (N j) (F j)) runName savePath lr0 ms k =
      Option.some (if k = 0 then -1 else 0) := by
  rw [bestAfter, runEpochs_initial N F runName savePath lr0 ms hN k]

theorem flatMap_eq_nil (g : ℕ → List Event) :
    ∀ l : List ℕ, (∀ e ∈ l, g e = []) → l.flatMap g = [] := by
  intro l
  induction l with
  | nil => simp
  | cons x xs ih =>
    intro h
    simp [h x (by simp), ih (fun e he => h e (by simp [he]))]

theorem flatMap_eq_map {β : Type} (g : ℕ → List β) (h : ℕ → β) :
    ∀ l : List ℕ, (∀ e ∈ l, g e = [h e]) → l.flatMap g = l.map h := by
  intro l
  induction l with
  | nil => simp
  | cons x xs ih =>
    intro hh
    simp [hh x (by simp), ih (fun e he => hh e (by simp [he]))]

/-- C1: `train` makes a single in-order pass over the training
dataloader with no custom control logic: for every batch `i`, in order,
it moves the input and the targets to the device, runs the model
forward, computes the multi-task loss, accumulates the three loss
components, zeroes the optimizer gradients, backpropagates the combined
loss, and performs exactly one optimizer step; no batch is skipped or
retried and the only branch outside the loop is the export guard. -/
theorem c1_train_single_pass (n : ℕ) (f : ℕ → LossTriple) (bap : ℚ)
    (runName savePath : String) (hn : n ≠ 0) :
    train (pureLoader n f) bap runName savePath =
      Except.ok ((meanCls f n, meanBox f n, meanPts f n, 0),
        trainTrace f 0 n ++ (if bap < 0 then exportEvents runName savePath else [])) ∧
    trainTrace f 0 n = (List.range n).flatMap (fun i =>
      [Event.inputToDevice i, Event.targetsToDevice i, Event.forward i,
       Event.zeroGrad,
       Event.backward (13/10 * (f i).1 + (f i).2.1 + (f i).2.2),
       Event.optStep]) ∧
    (trainTrace f 0 n).count Event.optStep = n := by
  refine ⟨train_pure n f bap runName savePath hn, ?_, trainTrace_count_optStep f n 0⟩
  rw [trainTrace_eq_flat, List.range_eq_range']
  rfl

theorem c1_witness :
    train (pureLoader 2 wF) 0 "r" "s" =
      Except.ok ((meanCls wF 2, meanBox wF 2, meanPts wF 2, 0),
        trainTrace wF 0 2 ++ (if (0 : ℚ) < 0 then exportEvents "r" "s" else [])) ∧
    trainTrace wF 0 2 = (List.range 2).flatMap (fun i =>
      [Event.inputToDevice i, Event.targetsToDevice i, Event.forward i,
       Event.zeroGrad,
       Event.backward (13/10 * (wF i).1 + (wF i).2.1 + (wF i).2.2),
       Event.optStep]) ∧
    (trainTrace wF 0 2).count Event.optStep = 2 :=
  c1_train_single_pass 2 wF 0 "r" "s" (by decide)

/-- C2: for every batch, the scalar handed to `loss.backward()` equals
`1.3` times the box-regression loss plus the classification loss plus
the landmark-regression loss returned by the loss function on that
batch, in batch order. -/
theorem c2_backward_combined_loss (n : ℕ) (f : ℕ → LossTriple) (bap : ℚ)
    (runName savePath : String) (hn : n ≠ 0) :
    train (pureLoader n f) bap runName savePath =
      Except.ok ((meanCls f n, meanBox f n, meanPts f n, 0),
        trainTrace f 0 n ++ (if bap < 0 then exportEvents runName savePath else [])) ∧
    (trainTrace f 0 n
        ++ (if bap < 0 then exportEvents runName savePath else [])).filterMap backwardLoss =
      (List.range n).map (fun i => 13/10 * (f i).1 + (f i).2.1 + (f i).2.2) := by
  refine ⟨train_pure n f bap runName savePath hn, ?_⟩
  rw [List.filterMap_append, trainTrace_filterMap_backward, List.range_eq_range']
  have hexp : (if bap < 0 then exportEvents runName savePath else []).filterMap
      backwardLoss = [] := by
    by_cases h : bap < 0 <;> simp [h, exportEvents, backwardLoss]
  rw [hexp, List.append_nil]

theorem c2_witness :
    train (pureLoader 2 wF) 0 "r" "s" =
      Except.ok ((meanCls wF 2, meanBox wF 2, meanPts wF 2, 0),
        trainTrace wF 0 2 ++ (if (0 : ℚ) < 0 then exportEvents "r" "s" else [])) ∧
    (trainTrace wF 0 2
        ++ (if (0 : ℚ) < 0 then exportEvents "r" "s" else [])).filterMap backwardLoss =
      (List.range 2).map (fun i => 13/10 * (wF i).1 + (wF i).2.1 + (wF i).2.2) :=
  c2_backward_combined_loss 2 wF 0 "r" "s" (by decide)

/-- C4: one call of `train` is one pass over the loader and, whenever
the loader has at least one batch, it returns the accumulated
classification, box-regression and landmark-regression losses each
divided by the number of batches, positionally in the order
(classification, box, landmark, epoch AP). -/
theorem c4_train_returns_means (n : ℕ) (f : ℕ → LossTriple) (bap : ℚ)
    (runName savePath : String) (hn : n ≠ 0) :
    train (pureLoader n f) bap runName savePath =
      Except.ok ((sumCls f n / n, sumBox f n / n, sumPts f n / n, 0),
        trainTrace f 0 n ++ (if bap < 0 then exportEvents runName savePath else [])) :=
  train_pure n f bap runName savePath hn

theorem c4_witness :
    train (pureLoader 2 wF) 0 "r" "s" =
      Except.ok ((sumCls wF 2 / 2, sumBox wF 2 / 2, sumPts wF 2 / 2, 0),
        trainTrace wF 0 2 ++ (if (0 : ℚ) < 0 then exportEvents "r" "s" else [])) :=
  c4_train_returns_means 2 wF 0 "r" "s" (by decide)

/-- C3: with a non-negative `args.epoch`, the program runs exactly
`args.epoch` epochs; the trace section of each epoch contains one
`train` pass, the loss logging at the step of that epoch, the
`scheduler.get_last_lr()[0]` logging at the step of that epoch (the base
rate decayed by `gamma = 0.7` once per milestone already passed), and
then exactly one `scheduler.step()`, in that order; the scheduler ends
advanced `args.epoch` times and the whole trace has `args.epoch`
scheduler steps. -/
theorem c3_epoch_schedule (cfg : Config) (a : Args) (N : ℕ → ℕ)
    (F : ℕ → ℕ → LossTriple) (hN : ∀ e, N e ≠ 0) (h0 : 0 ≤ a.epoch) :
    runMain cfg a (fun j => pureLoader (N j) (F j)) =
      Except.ok (⟨if a.epoch.toNat = 0 then -1 else 0,
                  ⟨a.lr, cfg.LR_MILESTONE, 7/10, a.epoch.toNat⟩⟩,
        (List.range a.epoch.toNat).flatMap
            (epochSection N F a.lr cfg.LR_MILESTONE a.run cfg.SAVE_PATH)
          ++ (if a.tuning then [] else artifactTail cfg a)) ∧
    ((a.epoch.toNat : Int) = a.epoch) ∧
    ((List.range a.epoch.toNat).flatMap
          (epochSection N F a.lr cfg.LR_MILESTONE a.run cfg.SAVE_PATH)
        ++ (if a.tuning then [] else artifactTail cfg a)).count Event.schedStep
      = a.epoch.toNat := by
  refine ⟨runMain_pure cfg a N F hN, Int.toNat_of_nonneg h0, ?_⟩
  rw [List.count_append, flatMap_count]
  have h1 : (List.range a.epoch.toNat).map
      (fun e => (epochSection N F a.lr cfg.LR_MILESTONE a.run cfg.SAVE_PATH e).count
        Event.schedStep) = (List.range a.epoch.toNat).map (fun _ => 1) := by
    refine List.map_congr_left ?_
    intro e _
    exact epochSection_count_schedStep N F a.lr cfg.LR_MILESTONE a.run cfg.SAVE_PATH e
  rw [h1]
  have h2 : (if a.tuning then ([] : List Event) else artifactTail cfg a).count
      Event.schedStep = 0 := by
    by_cases h : a.tuning <;> simp [h, artifactTail]
  rw [h2]
  simp

theorem c3_witness :
    runMain wCfg wArgs2 (fun j => pureLoader (wN j) (wFF j)) =
      Except.ok (⟨if wArgs2.epoch.toNat = 0 then -1 else 0,
                  ⟨wArgs2.lr, wCfg.LR_MILESTONE, 7/10, wArgs2.epoch.toNat⟩⟩,
        (List.range wArgs2.epoch.toNat).flatMap
            (epochSection wN wFF wArgs2.lr wCfg.LR_MILESTONE wArgs2.run wCfg.SAVE_PATH)
          ++ (if wArgs2.tuning then [] else artifactTail wCfg wArgs2)) ∧
    ((wArgs2.epoch.toNat : Int) = wArgs2.epoch) ∧
    ((List.range wArgs2.epoch.toNat).flatMap
          (epochSection wN wFF wArgs2.lr wCfg.LR_MILESTONE wArgs2.run wCfg.SAVE_PATH)
        ++ (if wArgs2.tuning then [] else artifactTail wCfg wArgs2)).count Event.schedStep
      = wArgs2.epoch.toNat :=
  c3_epoch_schedule wCfg wArgs2 wN wFF (fun _ => one_ne_zero) (by decide)

/-- C5: when `--tuning` is not given, the trace after the epoch loop
holds exactly one artifact creation, named after the run with type
`weights`, the addition of the two exported weight files
`SAVE_PATH + run + ".onnx"` and `SAVE_PATH + run + ".pth"`, and one
`log_artifact` call; when `--tuning` is given, the trace holds no
artifact call at all. -/
theorem c5_artifact_export (cfg : Config) (a : Args) (N : ℕ → ℕ)
    (F : ℕ → ℕ → LossTriple) (hN : ∀ e, N e ≠ 0) :
    runMain cfg a (fun j => pureLoader (N j) (F j)) =
      Except.ok (⟨if a.epoch.toNat = 0 then -1 else 0,
                  ⟨a.lr, cfg.LR_MILESTONE, 7/10, a.epoch.toNat⟩⟩,
        (List.range a.epoch.toNat).flatMap
            (epochSection N F a.lr cfg.LR_MILESTONE a.run cfg.SAVE_PATH)
          ++ (if a.tuning then [] else artifactTail cfg a)) ∧
    ((List.range a.epoch.toNat).flatMap
          (epochSection N F a.lr cfg.LR_MILESTONE a.run cfg.SAVE_PATH)
        ++ (if a.tuning then [] else artifactTail cfg a)).filter isArtifactEvent
      = (if a.tuning then []
         else [Event.artifactNew a.run "weights",
               Event.artifactAdd (cfg.SAVE_PATH ++ a.run ++ ".onnx"),
               Event.artifactAdd (cfg.SAVE_PATH ++ a.run ++ ".pth"),
               Event.logArtifact]) := by
  refine ⟨runMain_pure cfg a N F hN, ?_⟩
  rw [List.filter_append]
  have h1 : ((List.range a.epoch.toNat).flatMap
      (epochSection N F a.lr cfg.LR_MILESTONE a.run cfg.SAVE_PATH)).filter
        isArtifactEvent = [] := by
    rw [flatMap_filter]
    exact flatMap_eq_nil _ _ (fun e _ =>
      epochSection_filter_artifact N F a.lr cfg.LR_MILESTONE a.run cfg.SAVE_PATH e)
  rw [h1, List.nil_append]
  by_cases h : a.tuning <;> simp [h, artifactTail, isArtifactEvent]

theorem c5_witness :
    runMain wCfg wArgs2 (fun j => pureLoader (wN j) (wFF j)) =
      Except.ok (⟨if wArgs2.epoch.toNat = 0 then -1 else 0,
                  ⟨wArgs2.lr, wCfg.LR_MILESTONE, 7/10, wArgs2.epoch.toNat⟩⟩,
        (List.range wArgs2.epoch.toNat).flatMap
            (epochSection wN wFF wArgs2.lr wCfg.LR_MILESTONE wArgs2.run wCfg.SAVE_PATH)
          ++ (if wArgs2.tuning then [] else artifactTail wCfg wArgs2)) ∧
    ((List.range wArgs2.epoch.toNat).flatMap
          (epochSection wN wFF wArgs2.lr wCfg.LR_MILESTONE wArgs2.run wCfg.SAVE_PATH)
        ++ (if wArgs2.tuning then [] else artifactTail wCfg wArgs2)).filter isArtifactEvent
      = (if wArgs2.tuning then []
         else [Event.artifactNew wArgs2.run "weights",
               Event.artifactAdd (wCfg.SAVE_PATH ++ wArgs2.run ++ ".onnx"),
               Event.artifactAdd (wCfg.SAVE_PATH ++ wArgs2.run ++ ".pth"),
               Event.logArtifact]) :=
  c5_artifact_export wCfg wArgs2 wN wFF (fun _ => one_ne_zero)

/-- C8: the epoch loop binds the return tuple of `train` positionally to
`loss_box, loss_pts, loss_cls, train_ap`, so at every epoch the value
logged under the key `loss_cls` is the mean landmark loss of `train`, the
value under `loss_box` is its mean classification loss, and the
value under `loss_landmark` is its mean box loss. -/
theorem c8_logged_key_swap (cfg : Config) (a : Args) (N : ℕ → ℕ)
    (F : ℕ → ℕ → LossTriple) (hN : ∀ e, N e ≠ 0) :
    runMain cfg a (fun j => pureLoader (N j) (F j)) =
      Except.ok (⟨if a.epoch.toNat = 0 then -1 else 0,
                  ⟨a.lr, cfg.LR_MILESTONE, 7/10, a.epoch.toNat⟩⟩,
        (List.range a.epoch.toNat).flatMap
            (epochSection N F a.lr cfg.LR_MILESTONE a.run cfg.SAVE_PATH)
          ++ (if a.tuning then [] else artifactTail cfg a)) ∧
    ((List.range a.epoch.toNat).flatMap
          (epochSection N F a.lr cfg.LR_MILESTONE a.run cfg.SAVE_PATH)
        ++ (if a.tuning then [] else artifactTail cfg a)).filterMap scalarsLogged
      = (List.range a.epoch.toNat).map (fun e =>
          (e, meanPts (F e) (N e), meanCls (F e) (N e), meanBox (F e) (N e))) := by
  refine ⟨runMain_pure cfg a N F hN, ?_⟩
  rw [List.filterMap_append]
  have h1 : ((List.range a.epoch.toNat).flatMap
      (epochSection N F a.lr cfg.LR_MILESTONE a.run cfg.SAVE_PATH)).filterMap
        scalarsLogged
      = (List.range a.epoch.toNat).map (fun e =>
          (e, meanPts (F e) (N e), meanCls (F e) (N e), meanBox (F e) (N e))) := by
    rw [flatMap_filterMap]
    exact flatMap_eq_map _ _ _ (fun e _ =>
      epochSection_filterMap_scalars N F a.lr cfg.LR_MILESTONE a.run cfg.SAVE_PATH e)
  have h2 : (if a.tuning then ([] : List Event) else artifactTail cfg a).filterMap
      scalarsLogged = [] := by
    by_cases h : a.tuning <;> simp [h, artifactTail, scalarsLogged]
  rw [h1, h2, List.append_nil]

theorem parseTokens_flags_declared (specs : List ArgSpec) :
    ∀ (fuel : ℕ) (toks : List CliTok) (m : List (String × PyVal)),
      toks.length ≤ fuel → parseTokens specs toks = Except.ok m →
      ∀ t2 ∈ flagsOf toks, t2 ∈ specs.map ArgSpec.name := by
  intro fuel
  induction fuel with
  | zero =>
    intro toks m hlen _ t2 ht2
    cases toks with
    | nil => simp [flagsOf] at ht2
    | cons hd tl => simp at hlen
  | succ fuel ih =>
    intro toks m hlen hok t2 ht2
    cases toks with
    | nil => simp [flagsOf] at ht2
    | cons hd tl =>
      cases hd with
      | value v => simp [parseTokens] at hok
      | flag t =>
        rw [parseTokens] at hok
        split at hok
        · exact absurd hok (by simp)
        next s hf =>
          have hsmem : s ∈ specs := List.mem_of_find?_eq_some hf
          have hsname : s.name = t := by
            have hb : (s.name == t) = true := by simpa using List.find?_some hf
            exact eq_of_beq hb
          have hnames : t ∈ specs.map ArgSpec.name :=
            hsname ▸ List.mem_map_of_mem ArgSpec.name hsmem
          rw [show flagsOf (CliTok.flag t :: tl) = t :: flagsOf tl from rfl,
            List.mem_cons] at ht2
          rcases ht2 with ht2 | ht2
          · exact ht2 ▸ hnames
          split at hok
          · -- store_true option
            split at hok
            · exact absurd hok (by simp)
            next m2 hrec =>
              exact ih tl m2 (by simpa using Nat.le_of_succ_le_succ hlen) hrec t2 ht2
          · -- value-taking option
            split at hok
            next v rest2 =>
              split at hok
              · split at hok
                · exact absurd hok (by simp)
                next m2 hrec =>
                  have hlen2 : rest2.length ≤ fuel := by simp at hlen; omega
                  have ht2b : t2 ∈ flagsOf rest2 := by simpa [flagsOf] using ht2
                  exact ih rest2 m2 hlen2 hrec t2 ht2b
              · exact absurd hok (by simp)
            · exact absurd hok (by simp)

theorem c8_witness :
    runMain wCfg wArgs2 (fun j => pureLoader (wN j) (wFF j)) =
      Except.ok (⟨if wArgs2.epoch.toNat = 0 then -1 else 0,
                  ⟨wArgs2.lr, wCfg.LR_MILESTONE, 7/10, wArgs2.epoch.toNat⟩⟩,
        (List.range wArgs2.epoch.toNat).flatMap
            (epochSection wN wFF wArgs2.lr wCfg.LR_MILESTONE wArgs2.run wCfg.SAVE_PATH)
          ++ (if wArgs2.tuning then [] else artifactTail wCfg wArgs2)) ∧
    ((List.range wArgs2.epoch.toNat).flatMap
          (epochSection wN wFF wArgs2.lr wCfg.LR_MILESTONE wArgs2.run wCfg.SAVE_PATH)
        ++ (if wArgs2.tuning then [] else artifactTail wCfg wArgs2)).filterMap scalarsLogged
      = (List.range wArgs2.epoch.toNat).map (fun e =>
          (e, meanPts (wFF e) (wN e), meanCls (wFF e) (wN e), meanBox (wFF e) (wN e))) :=
  c8_logged_key_swap wCfg wArgs2 wN wFF (fun _ => one_ne_zero)

/-- C9: the epoch AP computed in `train` is the constant `0` and
`best_ap` starts at `-1`, so over a run with at least one epoch the
checkpoint export inside `train` fires exactly once — during the first
epoch, never later — and `best_ap` is non-decreasing across epochs,
equal to `0` from the end of the first epoch onward. -/
theorem c9_export_once_best_ap (cfg : Config) (a : Args) (N : ℕ → ℕ)
    (F : ℕ → ℕ → LossTriple) (j k : ℕ) (hN : ∀ e, N e ≠ 0)
    (h1 : 1 ≤ a.epoch.toNat) (hjk : j ≤ k) (hk1 : 1 ≤ k) :
    runMain cfg a (fun i => pureLoader (N i) (F i)) =
      Except.ok (⟨if a.epoch.toNat = 0 then -1 else 0,
                  ⟨a.lr, cfg.LR_MILESTONE, 7/10, a.epoch.toNat⟩⟩,
        (List.range a.epoch.toNat).flatMap
            (epochSection N F a.lr cfg.LR_MILESTONE a.run cfg.SAVE_PATH)
          ++ (if a.tuning then [] else artifactTail cfg a)) ∧
    ((List.range a.epoch.toNat).flatMap
          (epochSection N F a.lr cfg.LR_MILESTONE a.run cfg.SAVE_PATH)
        ++ (if a.tuning then [] else artifactTail cfg a)).filter isExportEvent
      = exportEvents a.run cfg.SAVE_PATH ∧
    (epochSection N F a.lr cfg.LR_MILESTONE a.run cfg.SAVE_PATH 0).filter isExportEvent
      = exportEvents a.run cfg.SAVE_PATH ∧
    ((List.range' 1 (a.epoch.toNat - 1)).flatMap
        (epochSection N F a.lr cfg.LR_MILESTONE a.run cfg.SAVE_PATH)).filter isExportEvent
      = [] ∧
    bestAfter (fun i => pureLoader (N i) (F i)) a.run cfg.SAVE_PATH a.lr
        cfg.LR_MILESTONE 0 = Option.some (-1) ∧
    bestAfter (fun i => pureLoader (N i) (F i)) a.run cfg.SAVE_PATH a.lr
        cfg.LR_MILESTONE k = Option.some 0 ∧
    (bestAfter (fun i => pureLoader (N i) (F i)) a.run cfg.SAVE_PATH a.lr
        cfg.LR_MILESTONE j).getD (-1)
      ≤ (bestAfter (fun i => pureLoader (N i) (F i)) a.run cfg.SAVE_PATH a.lr
          cfg.LR_MILESTONE k).getD (-1) := by
  have hsec0 :
      (epochSection N F a.lr cfg.LR_MILESTONE a.run cfg.SAVE_PATH 0).filter isExportEvent
        = exportEvents a.run cfg.SAVE_PATH := by
    rw [epochSection_filter_export]; simp
  have hlater :
      ((List.range' 1 (a.epoch.toNat - 1)).flatMap
          (epochSection N F a.lr cfg.LR_MILESTONE a.run cfg.SAVE_PATH)).filter
        isExportEvent = [] := by
    rw [flatMap_filter]
    refine flatMap_eq_nil _ _ ?_
    intro e he
    have h1e : 1 ≤ e := (List.mem_range'_1.mp he).1
    rw [epochSection_filter_export]
    simp [show e ≠ 0 by omega]
  have hrange : List.range a.epoch.toNat = 0 :: List.range' 1 (a.epoch.toNat - 1) := by
    rw [List.range_eq_range']
    obtain ⟨m, hm⟩ : ∃ m, a.epoch.toNat = m + 1 := ⟨a.epoch.toNat - 1, by omega⟩
    rw [hm, List.range'_succ]
    simp
  have hfull :
      ((List.range a.epoch.toNat).flatMap
            (epochSection N F a.lr cfg.LR_MILESTONE a.run cfg.SAVE_PATH)
          ++ (if a.tuning then [] else artifactTail cfg a)).filter isExportEvent
        = exportEvents a.run cfg.SAVE_PATH := by
    rw [List.filter_append, hrange, List.flatMap_cons, List.filter_append, hsec0, hlater]
    have htail : (if a.tuning then ([] : List Event) else artifactTail cfg a).filter
        isExportEvent = [] := by
      by_cases h : a.tuning <;> simp [h, artifactTail, isExportEvent]
    rw [htail]
    simp
  refine ⟨runMain_pure cfg a N F hN, hfull, hsec0, hlater, ?_, ?_, ?_⟩
  · rw [bestAfter_pure N F a.run cfg.SAVE_PATH a.lr cfg.LR_MILESTONE hN 0]
    simp
  · rw [bestAfter_pure N F a.run cfg.SAVE_PATH a.lr cfg.LR_MILESTONE hN k]
    simp [show k ≠ 0 by omega]
  · rw [bestAfter_pure N F a.run cfg.SAVE_PATH a.lr cfg.LR_MILESTONE hN j,
      bestAfter_pure N F a.run cfg.SAVE_PATH a.lr cfg.LR_MILESTONE hN k]
    by_cases hj0 : j = 0 <;> simp [hj0, show k ≠ 0 by omega]

theorem c9_witness :
    runMain wCfg wArgs2 (fun i => pureLoader (wN i) (wFF i)) =
      Except.ok (⟨if wArgs2.epoch.toNat = 0 then -1 else 0,
                  ⟨wArgs2.lr, wCfg.LR_MILESTONE, 7/10, wArgs2.epoch.toNat⟩⟩,
        (List.range wArgs2.epoch.toNat).flatMap
            (epochSection wN wFF wArgs2.lr wCfg.LR_MILESTONE wArgs2.run wCfg.SAVE_PATH)
          ++ (if wArgs2.tuning then [] else artifactTail wCfg wArgs2)) ∧
    ((List.range wArgs2.epoch.toNat).flatMap
          (epochSection wN wFF wArgs2.lr wCfg.LR_MILESTONE wArgs2.run wCfg.SAVE_PATH)
        ++ (if wArgs2.tuning then [] else artifactTail wCfg wArgs2)).filter isExportEvent
      = exportEvents wArgs2.run wCfg.SAVE_PATH ∧
    (epochSection wN wFF wArgs2.lr wCfg.LR_MILESTONE wArgs2.run
        wCfg.SAVE_PATH 0).filter isExportEvent
      = exportEvents wArgs2.run wCfg.SAVE_PATH ∧
    ((List.range' 1 (wArgs2.epoch.toNat - 1)).flatMap
        (epochSection wN wFF wArgs2.lr wCfg.LR_MILESTONE wArgs2.run
          wCfg.SAVE_PATH)).filter isExportEvent
      = [] ∧
    bestAfter (fun i => pureLoader (wN i) (wFF i)) wArgs2.run wCfg.SAVE_PATH wArgs2.lr
        wCfg.LR_MILESTONE 0 = Option.some (-1) ∧
    bestAfter (fun i => pureLoader (wN i) (wFF i)) wArgs2.run wCfg.SAVE_PATH wArgs2.lr
        wCfg.LR_MILESTONE 1 = Option.some 0 ∧
    (bestAfter (fun i => pureLoader (wN i) (wFF i)) wArgs2.run wCfg.SAVE_PATH wArgs2.lr
        wCfg.LR_MILESTONE 0).getD (-1)
      ≤ (bestAfter (fun i => pureLoader (wN i) (wFF i)) wArgs2.run wCfg.SAVE_PATH wArgs2.lr
          wCfg.LR_MILESTONE 1).getD (-1) :=
  c9_export_once_best_ap wCfg wArgs2 wN wFF 0 1 (fun _ => one_ne_zero)
    (by decide) (by decide) (by decide)

/-- C7: the module defines no error handling of its own: an exception
raised by the loss-function call inside `train` (after any prefix of
successful batches) is returned unchanged as the outcome of `train`, and an
exception raised in any epoch of the main loop (after any prefix of
successful epochs) is returned unchanged as the outcome of the program, with
no recovery, retry or translation. -/
theorem c7_exceptions_propagate (loader : Loader) (bap : ℚ)
    (runName savePath : String) (j : ℕ) (err : String)
    (cfg : Config) (a : Args) (loaderAt : ℕ → Loader) (k : ℕ) (err2 : String)
    (st1 : MainState) (evs1 : List Event)
    (hj : j < loader.numBatches)
    (herr : loader.lossAt j = Except.error err)
    (hpre : ∀ d, d < j → ∃ v, loader.lossAt d = Except.ok v)
    (hk : k < a.epoch.toNat)
    (hpre2 : runEpochsFrom loaderAt a.run cfg.SAVE_PATH 0 k
        ⟨-1, ⟨a.lr, cfg.LR_MILESTONE, 7/10, 0⟩⟩ = Except.ok (st1, evs1))
    (herr2 : epochBody loaderAt a.run cfg.SAVE_PATH k st1 = Except.error err2) :
    train loader bap runName savePath = Except.error err ∧
    runMain cfg a loaderAt = Except.error err2 :=
  ⟨train_error loader bap runName savePath j err hj herr hpre,
   runMain_error cfg a loaderAt k err2 st1 evs1 hk hpre2 herr2⟩

theorem c7_witness :
    train wBadLoader 0 "r" "s" = Except.error "boom" ∧
    runMain wCfg wArgs1 (fun _ => wBadLoader) = Except.error "boom" :=
  c7_exceptions_propagate wBadLoader 0 "r" "s" 0 "boom" wCfg wArgs1
    (fun _ => wBadLoader) 0 "boom"
    ⟨-1, ⟨wArgs1.lr, wCfg.LR_MILESTONE, 7/10, 0⟩⟩ []
    (by decide) rfl (fun d hd => absurd hd (Nat.not_lt_zero d))
    (by decide) rfl rfl

/-- C6: the parser declares exactly the eleven options `--run`,
`--epoch`, `--model`, `--weight`, `--weight_decay`, `--momentum`,
`--startfm`, `--batchsize`, `--lr`, `--download` and `--tuning`; an
accepted command line mentions only declared options; a command line
supplying all eleven is accepted; and any declared option omitted from
an accepted command line parses to its declared default. -/
theorem c6_cli_surface (cfg : Config) (toks : List CliTok) (a : Args)
    (name t : String)
    (hok : parse_args cfg toks = Except.ok a)
    (hname : name ∈ (argSpecs cfg).map ArgSpec.name)
    (habs : name ∉ flagsOf toks)
    (ht : t ∈ flagsOf toks) :
    (argSpecs cfg).map ArgSpec.name =
      ["--run", "--epoch", "--model", "--weight", "--weight_decay", "--momentum",
       "--startfm", "--batchsize", "--lr", "--download", "--tuning"] ∧
    t ∈ (argSpecs cfg).map ArgSpec.name ∧
    parse_args cfg demoToks =
      Except.ok ⟨"x", 0, "m", PyVal.str "w", 0, 0, 0, 0, 0, true, true⟩ ∧
    fieldOf a name = defaultOf cfg name := by
  rw [parse_args] at hok
  cases hpt : parseTokens (argSpecs cfg) toks with
  | error e => rw [hpt] at hok; exact absurd hok (by simp)
  | ok m =>
    rw [hpt] at hok
    have ha : a = argsOfMap cfg m := by
      have := hok
      simp only [Except.ok.injEq] at this
      exact this.symm
    subst ha
    refine ⟨by simp [argSpecs], ?_, by rfl, ?_⟩
    · exact parseTokens_flags_declared (argSpecs cfg) toks.length toks m le_rfl hpt t ht
    · have hlk : ∀ nm, nm ∉ flagsOf toks → lookupVal m nm = Option.none := fun nm h =>
        parseTokens_lookup_none (argSpecs cfg) toks m nm hpt h
      simp only [argSpecs, List.map_cons, List.map_nil, List.mem_cons,
        List.not_mem_nil, or_false] at hname
      rcases hname with h | h | h | h | h | h | h | h | h | h | h <;> subst h <;>
        simp [fieldOf, argsOfMap, hlk _ habs, defaultOf, argSpecs, List.find?]

theorem c6_witness :
    (argSpecs wCfg).map ArgSpec.name =
      ["--run", "--epoch", "--model", "--weight", "--weight_decay", "--momentum",
       "--startfm", "--batchsize", "--lr", "--download", "--tuning"] ∧
    "--tuning" ∈ (argSpecs wCfg).map ArgSpec.name ∧
    parse_args wCfg demoToks =
      Except.ok ⟨"x", 0, "m", PyVal.str "w", 0, 0, 0, 0, 0, true, true⟩ ∧
    fieldOf (argsOfMap wCfg [("--tuning", PyVal.bool true)]) "--epoch"
      = defaultOf wCfg "--epoch" :=
  c6_cli_surface wCfg [CliTok.flag "--tuning"]
    (argsOfMap wCfg [("--tuning", PyVal.bool true)]) "--epoch" "--tuning"
    rfl (by simp [argSpecs]) (by simp [flagsOf]) (by simp [flagsOf])

/-- C10: the parsed `--batchsize` and `--weight` values have no effect:
both dataloaders are built from the constant `BATCH_SIZE` (and the other
config constants) and no pretrained weight is ever loaded, so two runs
differing only in these two arguments construct identical dataloaders
and an identically initialized model. -/
theorem c10_batchsize_weight_no_effect (cfg : Config) (a : Args)
    (bs : Int) (w : PyVal) :
    mkTrainloader cfg (Args.mk a.run a.epoch a.model w a.weight_decay a.momentum
        a.startfm bs a.lr a.download a.tuning) = mkTrainloader cfg a ∧
    mkValidloader cfg (Args.mk a.run a.epoch a.model w a.weight_decay a.momentum
        a.startfm bs a.lr a.download a.tuning) = mkValidloader cfg a ∧
    mkModel cfg (Args.mk a.run a.epoch a.model w a.weight_decay a.momentum
        a.startfm bs a.lr a.download a.tuning) = mkModel cfg a ∧
    mkTrainloader cfg a =
      LoaderInit.mk cfg.DATA_PATH true cfg.BATCH_SIZE true cfg.NUM_WORKERS
        "detection_collate" ∧
    mkModel cfg a = ModelInit.mk a.model cfg.RANDOM_SEED Option.none :=
  ⟨rfl, rfl, rfl, rfl, rfl⟩

end RetinaTrain
